import Mathlib

/-!
Verification development for the virtual-butler intake → queue → persistence →
status pipeline.  The Go sources are shallowly embedded: pure helpers become
Lean functions, the consumer loop becomes an explicit state-passing step
function, clock and random reads become explicit parameters, and the queue /
durable store are modelled by the data the loop exchanges with them (message
body, insert success flag, acknowledgement flag).
-/

namespace VButler

/-! ### Classifier (part_000, `routeDepartment`, lines 34-51)

`strings.ToLower` is modelled character-wise (the keywords are all ASCII);
`strings.Contains` is modelled by `containsList`.  Go iterates the
`keywordDept` map with `range`, whose order is randomized per loop, so the
embedding takes the iteration order as an explicit parameter constrained to be
a permutation of the table's entries. -/

/-- Character-wise lowercasing, modelling `strings.ToLower` on the ASCII
range that the keyword table uses. -/
def lowerChar (c : Char) : Char := c.toLower

/-- The lowered character sequence of a string (`strings.ToLower(text)`). -/
def toLowerList (s : String) : List Char := s.toList.map lowerChar

/-- Does `s` start with `pre`?  Models the prefix test inside Go's
`strings.Contains`. -/
def hasPrefixL : List Char → List Char → Bool
  | _, [] => true
  | [], _ :: _ => false
  | c :: s, p :: ps => c = p && hasPrefixL s ps

/-- `containsList s sub` models Go `strings.Contains(s, sub)`: some suffix of
`s` starts with `sub`. -/
def containsList : List Char → List Char → Bool
  | s, sub =>
    hasPrefixL s sub ||
      match s with
      | [] => false
      | _ :: t => containsList t sub

/-- The `keywordDept` table of part_000 (lines 34-41), as an association list.
Go stores it in a map; the list fixes one arbitrary enumeration of its
entries, and iteration orders are modelled as permutations of this list. -/
def keywordDeptList : List (String × String) :=
  [("towel", "Housekeeping"), ("clean", "Housekeeping"),
   ("food", "Room Service"), ("order", "Room Service"),
   ("checkout", "Front Desk"), ("wifi", "IT")]

/-- The `for k, dept := range keywordDept` loop body of `routeDepartment`:
first entry whose keyword occurs in the lowered text wins; otherwise
`"General"`. -/
def routeGo : List (String × String) → List Char → String
  | [], _ => "General"
  | (k, dept) :: rest, lower =>
    if containsList lower k.toList then dept else routeGo rest lower

/-- `routeDepartment` (part_000 lines 43-51), with the map iteration order
made explicit: Go's `range` over a map yields the entries in a randomized
order, so the function is parameterized by the order, which callers constrain
to a permutation of `keywordDeptList`. -/
def routeDepartmentWith (order : List (String × String)) (text : String) : String :=
  routeGo order (toLowerList text)

/-! ### Correlator (part_000 line 58)

`fmt.Sprintf("%d-%d", time.Now().UnixNano(), rand.Intn(10000))`.  The two
reads (clock, random) are explicit parameters; `UnixNano` is nonnegative in
any current era, so both are `Nat` and `%d` is decimal notation. -/

/-- The decimal digit character for `d < 10`. -/
def digitChar (d : Nat) : Char := Char.ofNat (48 + d)

/-- Most-significant-first decimal digits of `n`, with explicit fuel (any
fuel above `n` suffices).  Models `%d` formatting of a nonnegative integer. -/
def decDigits : Nat → Nat → List Char
  | 0, _ => []
  | fuel + 1, n =>
    if n < 10 then [digitChar n]
    else decDigits fuel (n / 10) ++ [digitChar (n % 10)]

/-- Decimal representation of a natural number, as printed by Go's `%d`. -/
def decRepr (n : Nat) : String := ⟨decDigits (n + 1) n⟩

/-- `newRequestID` — the request-ID expression of `handleChatRequest`
(part_000 line 58): `fmt.Sprintf("%d-%d", t, r)` where `t` is the observed
`time.Now().UnixNano()` and `r` the observed `rand.Intn(10000)`. -/
def newRequestID (t r : Nat) : String := decRepr t ++ "-" ++ decRepr r

/-! ### Intake Gateway envelope (part_000, `handleChatRequest` lines 60-63)

The queue message body is built by raw `fmt.Sprintf` substitution into a JSON
skeleton — the field values are **not** JSON-escaped by the gateway. -/

/-- The queue message body built in `handleChatRequest` (part_000 lines
60-63): literal sprintf substitution of the four fields into the JSON
skeleton, with no escaping of the substituted strings. -/
def encodeEnvelope (requestID guestID department request : String) : String :=
  "\x7b\"requestID\":\"" ++ requestID ++ "\",\"guestID\":\"" ++ guestID ++
  "\",\"department\":\"" ++ department ++ "\",\"request\":\"" ++ request ++ "\"\x7d"

/-! ### Consumer-side decoding (part_002, `json.Unmarshal` into the payload
struct, lines 70-80)

`encoding/json` is modelled for the payload's shape: a flat JSON object with
string values and no inter-token whitespace (the gateway emits none), parsed
with the standard string-literal escapes (`\uXXXX` escapes are not modelled —
the gateway never emits a backslash, and no theorem input contains one).
Decoding fails exactly when Go's `Unmarshal` would report an error on such a
body: unterminated or ill-escaped strings, raw control characters, missing
`:` `,` `\x7d` delimiters, non-string values, or trailing data. -/

/-- JSON single-character escapes accepted after a backslash. -/
def unescapeChar : Char → Option Char
  | '\"' => some '\"'
  | '\\' => some '\\'
  | '/' => some '/'
  | 'b' => some (Char.ofNat 8)
  | 'f' => some (Char.ofNat 12)
  | 'n' => some '\n'
  | 'r' => some '\r'
  | 't' => some '\t'
  | _ => none

/-- Scan a JSON string literal (opening quote already consumed): returns the
unescaped contents and the remaining input after the closing quote. -/
def scanString : List Char → Option (List Char × List Char)
  | [] => none
  | c :: rest =>
    if c = '\"' then some ([], rest)
    else if c = '\\' then
      match rest with
      | [] => none
      | e :: rest2 =>
        match unescapeChar e, scanString rest2 with
        | some u, some (s, r) => some (u :: s, r)
        | _, _ => none
    else if c.toNat < 32 then none
    else
      match scanString rest with
      | some (s, r) => some (c :: s, r)
      | none => none

/-- Parse the members of a flat string-valued JSON object, starting right
after the `\x7b` (at the quote of the first key); returns the key/value pairs
in order and the input remaining after the closing `\x7d`.  Fuel bounds the
number of members; any fuel above the input length suffices. -/
def parseMembers : Nat → List Char → Option (List (String × String) × List Char)
  | 0, _ => none
  | fuel + 1, '\"' :: rest =>
    match scanString rest with
    | some (k, ':' :: '\"' :: r2) =>
      match scanString r2 with
      | some (v, ',' :: r3) =>
        match parseMembers fuel r3 with
        | some (ms, r4) => some ((⟨k⟩, ⟨v⟩) :: ms, r4)
        | none => none
      | some (v, '\x7d' :: r3) => some ([(⟨k⟩, ⟨v⟩)], r3)
      | _ => none
    | _ => none
  | _ + 1, _ => none

/-- The payload struct the consumer decodes into (part_002 lines 70-75). -/
structure Payload where
  requestID : String
  guestID : String
  department : String
  request : String
deriving DecidableEq, Repr

/-- The zero value of the payload struct (all fields empty strings). -/
def Payload.zero : Payload := ⟨"", "", "", ""⟩

/-- Assign one decoded object member to the payload struct, as `Unmarshal`
does: keys are matched to the struct's json tags case-insensitively, unknown
keys are ignored, later duplicates overwrite. -/
def assignField (p : Payload) (k v : String) : Payload :=
  if toLowerList k = "requestid".toList then { p with requestID := v }
  else if toLowerList k = "guestid".toList then { p with guestID := v }
  else if toLowerList k = "department".toList then { p with department := v }
  else if toLowerList k = "request".toList then { p with request := v }
  else p

/-- `json.Unmarshal(msg.Body, &payload)` (part_002 line 76) on the modelled
body shape: the body must be exactly one flat string-valued object with
nothing after it; its members are folded into the zero payload in order. -/
def decodeEnvelope (body : String) : Option Payload :=
  match body.toList with
  | '\x7b' :: '\x7d' :: [] => some Payload.zero
  | '\x7b' :: rest =>
    match parseMembers (body.toList.length + 1) rest with
    | some (ms, []) => some (ms.foldl (fun p kv => assignField p kv.1 kv.2) Payload.zero)
    | _ => none
  | _ => none

/-! ### Work Order and the consumer loop body (part_002 lines 20-35, 64-101)

The loop body is a step function.  External effects are explicit data: the
received message body, whether `InsertOne` succeeds, and the values returned
by the two `time.Now()` calls.  The step returns the new Status Projection
(`statusStore`), whether `CompleteMessage` was called (acknowledgement), and
the record handed to `InsertOne`, if any. -/

/-- The nested `Timestamps` struct of `WorkOrder` (part_002 lines 26-29). -/
structure Timestamps where
  created : Nat
  updated : Nat
deriving DecidableEq, Repr

/-- The `WorkOrder` struct (part_002 lines 20-30).  `id` is the store-assigned
`primitive.ObjectID`, zero-valued at construction (`InsertOne` does not write
it back into the struct); times are the explicit clock readings. -/
structure WorkOrder where
  id : String
  guestID : String
  department : String
  request : String
  status : String
  timestamps : Timestamps
deriving DecidableEq, Repr

/-- The Work Order constructed from a decoded payload (part_002 lines 81-88):
all payload fields except `requestID` are copied, `status` is `"Pending"`,
and `created` / `updated` come from the two successive `time.Now()` calls. -/
def mkWorkOrder (p : Payload) (t1 t2 : Nat) : WorkOrder :=
  { id := "", guestID := p.guestID, department := p.department,
    request := p.request, status := "Pending",
    timestamps := { created := t1, updated := t2 } }

/-- The Status Projection: the `statusStore` map of part_002 (lines 32-35),
keyed by requestID. -/
def Proj : Type := String → Option WorkOrder

/-- The initial, empty `statusStore`. -/
def Proj.empty : Proj := fun _ => none

/-- Go map assignment `statusStore[key] = wo`. -/
def Proj.upsert (st : Proj) (key : String) (wo : WorkOrder) : Proj :=
  fun k => if k = key then some wo else st k

/-- One iteration of the `workOrderConsumer` loop (part_002 lines 64-100)
after a message has been received.  `insertOk` says whether `coll.InsertOne`
succeeds.  Returns `(new statusStore, message acknowledged?, record durably
inserted, if any)`.  Decode failure: log, acknowledge, continue (lines
76-80).  Insert failure: log only; the projection is not written, nothing is
persisted, and `CompleteMessage` on line 98 runs unconditionally either
way. -/
def consumerStep (st : Proj) (body : String) (insertOk : Bool) (t1 t2 : Nat) :
    Proj × Bool × Option WorkOrder :=
  match decodeEnvelope body with
  | none => (st, true, none)
  | some p =>
    let wo := mkWorkOrder p t1 t2
    if insertOk then (st.upsert p.requestID wo, true, some wo)
    else (st, true, none)

/-- One received message together with the external outcomes its processing
observes: the insert result and the two clock readings. -/
structure MsgEvent where
  body : String
  insertOk : Bool
  t1 : Nat
  t2 : Nat

/-- Run the consumer loop over a sequence of received messages, tracking the
Status Projection. -/
def runConsumer (st : Proj) : List MsgEvent → Proj
  | [] => st
  | e :: rest => runConsumer (consumerStep st e.body e.insertOk e.t1 e.t2).1 rest

/-- The projection lookup performed by `handleStatus` (part_002 lines 37-48):
a pure read of `statusStore[requestID]`; `none` is the 404 "Not found" path. -/
def handleStatusLookup (st : Proj) (requestID : String) : Option WorkOrder :=
  st requestID

/-! ### Verification helpers (not part of the source) -/

/-- Read a most-significant-first digit list back as a number (verification
inverse of `decDigits`). -/
def parseDec (l : List Char) : Nat :=
  l.foldl (fun a c => 10 * a + (c.toNat - 48)) 0

/-- A character that passes through the gateway's unescaped sprintf and the
consumer's JSON string scanner unchanged: not a quote, not a backslash, not a
control character. -/
def safeChar (c : Char) : Bool :=
  c != '\"' && (c != '\\' && decide (32 ≤ c.toNat))

/-- A string all of whose characters are `safeChar`. -/
def safeStr (s : String) : Bool := s.data.all safeChar

/-! ## Classifier lemmas -/

/-- If no keyword of the order occurs in the lowered text, the loop falls
through to `"General"`. -/
lemma routeGo_eq_general (low : List Char) :
    ∀ o : List (String × String),
      (∀ p ∈ o, containsList low p.1.toList = false) →
      routeGo o low = "General" := by
  intro o h
  induction o with
  | nil => rfl
  | cons hd tl ih =>
    obtain ⟨k, d⟩ := hd
    have hk := h (k, d) (List.mem_cons_self _ _)
    simp only at hk
    simp only [routeGo, hk, Bool.false_eq_true, if_false]
    exact ih fun p hp => h p (List.mem_cons_of_mem _ hp)

/-- If some keyword of the order occurs in the lowered text and every
occurring keyword maps to `d`, the loop returns `d` regardless of where the
first match sits. -/
lemma routeGo_eq_of_match (low : List Char) (d : String) :
    ∀ o : List (String × String),
      (∃ p ∈ o, containsList low p.1.toList = true) →
      (∀ p ∈ o, containsList low p.1.toList = true → p.2 = d) →
      routeGo o low = d := by
  intro o
  induction o with
  | nil => rintro ⟨p, hp, -⟩ -; cases hp
  | cons hd tl ih =>
    rintro ⟨p, hp, hpc⟩ hall
    obtain ⟨k, dd⟩ := hd
    by_cases hk : containsList low k.toList = true
    · simp only [routeGo, hk, if_true]
      exact hall (k, dd) (List.mem_cons_self _ _) hk
    · simp only [routeGo, hk, if_false]
      apply ih
      · refine ⟨p, ?_, hpc⟩
        rcases List.mem_cons.mp hp with h | h
        · subst h; exact absurd hpc hk
        · exact h
      · exact fun q hq hqc => hall q (List.mem_cons_of_mem _ hq) hqc

/-- The loop result is `"General"` or the department of some table entry. -/
lemma routeGo_mem (low : List Char) :
    ∀ o : List (String × String),
      routeGo o low = "General" ∨ ∃ p ∈ o, routeGo o low = p.2 := by
  intro o
  induction o with
  | nil => exact Or.inl rfl
  | cons hd tl ih =>
    obtain ⟨k, dd⟩ := hd
    by_cases hk : containsList low k.toList = true
    · exact Or.inr ⟨(k, dd), List.mem_cons_self _ _, by simp only [routeGo, hk, if_true]⟩
    · simp only [routeGo, hk, if_false]
      rcases ih with h | ⟨p, hp, hval⟩
      · exact Or.inl h
      · exact Or.inr ⟨p, List.mem_cons_of_mem _ hp, hval⟩

/-! ## C4: classifier determinism -/

/-- C4 counterexample: the claim says any two evaluations of classify return
the same department because the keyword table is iterated in a fixed order.
`routeDepartment` ranges over a Go map, whose iteration order is randomized,
so two evaluations may walk the table in different orders: on "clean food"
the source enumeration yields "Housekeeping" while another permutation of the
same table (a possible map iteration order) yields "Room Service". -/
theorem classify_order_dependent_cex :
    List.Perm
      [("food", "Room Service"), ("towel", "Housekeeping"), ("clean", "Housekeeping"),
       ("order", "Room Service"), ("checkout", "Front Desk"), ("wifi", "IT")]
      keywordDeptList ∧
    routeDepartmentWith keywordDeptList "clean food" = "Housekeeping" ∧
    routeDepartmentWith
      [("food", "Room Service"), ("towel", "Housekeeping"), ("clean", "Housekeeping"),
       ("order", "Room Service"), ("checkout", "Front Desk"), ("wifi", "IT")]
      "clean food" = "Room Service" := by
  decide

/-- C4 (amended): classify is deterministic for a fixed iteration order, but
the Go map iteration order is randomized; across any two iteration orders
(permutations of the keyword table) the result agrees exactly on texts whose
occurring keywords all map to a single department (or none occurs). -/
theorem classify_agrees_across_orders (o1 o2 : List (String × String)) (text : String)
    (h1 : List.Perm o1 keywordDeptList) (h2 : List.Perm o2 keywordDeptList)
    (hagree : ∀ p ∈ keywordDeptList, ∀ q ∈ keywordDeptList,
      containsList (toLowerList text) p.1.toList = true →
      containsList (toLowerList text) q.1.toList = true → p.2 = q.2) :
    routeDepartmentWith o1 text = routeDepartmentWith o2 text := by
  by_cases hex : ∃ p ∈ keywordDeptList, containsList (toLowerList text) p.1.toList = true
  · obtain ⟨p₀, hp₀, hc₀⟩ := hex
    have key : ∀ o : List (String × String), List.Perm o keywordDeptList →
        routeGo o (toLowerList text) = p₀.2 := by
      intro o ho
      apply routeGo_eq_of_match
      · exact ⟨p₀, ho.mem_iff.mpr hp₀, hc₀⟩
      · exact fun q hq hqc => hagree q (ho.mem_iff.mp hq) p₀ hp₀ hqc hc₀
    unfold routeDepartmentWith
    rw [key o1 h1, key o2 h2]
  · push_neg at hex
    have key : ∀ o : List (String × String), List.Perm o keywordDeptList →
        routeGo o (toLowerList text) = "General" := by
      intro o ho
      apply routeGo_eq_general
      intro p hp
      have := hex p (ho.mem_iff.mp hp)
      simpa using this
    unfold routeDepartmentWith
    rw [key o1 h1, key o2 h2]

/-- Witness for `classify_agrees_across_orders` at a concrete order pair and
text ("need towels cleaned" matches only Housekeeping keywords). -/
theorem classify_agrees_across_orders_witness :
    routeDepartmentWith keywordDeptList.reverse "need towels cleaned" =
      routeDepartmentWith keywordDeptList "need towels cleaned" :=
  classify_agrees_across_orders keywordDeptList.reverse keywordDeptList
    "need towels cleaned" (by decide) (by decide) (by decide)

/-! ## C5: towel / General / fixed department set -/

/-- C5 counterexample: the claim says every text containing "towel" (any
case) classifies as Housekeeping.  "towel order" contains "towel", yet under
the map iteration order that visits ("order", "Room Service") first — a
permutation of the keyword table, hence a possible Go map iteration order —
classify returns "Room Service". -/
theorem classify_towel_cex :
    List.Perm
      [("order", "Room Service"), ("towel", "Housekeeping"), ("clean", "Housekeeping"),
       ("food", "Room Service"), ("checkout", "Front Desk"), ("wifi", "IT")]
      keywordDeptList ∧
    containsList (toLowerList "towel order") "towel".toList = true ∧
    routeDepartmentWith
      [("order", "Room Service"), ("towel", "Housekeeping"), ("clean", "Housekeeping"),
       ("food", "Room Service"), ("checkout", "Front Desk"), ("wifi", "IT")]
      "towel order" = "Room Service" := by
  decide

/-- C5 (amended): for any iteration order that is a permutation of the
keyword table: (a) a text containing "towel" (any case) classifies as
Housekeeping provided every keyword occurring in it maps to Housekeeping;
(b) a text containing no configured keyword classifies as "General"; (c) the
result always lies in the fixed set {Housekeeping, Room Service, Front Desk,
IT, General}. -/
theorem classify_towel_general_set :
    (∀ (o : List (String × String)) (text : String), List.Perm o keywordDeptList →
      containsList (toLowerList text) "towel".toList = true →
      (∀ p ∈ keywordDeptList,
        containsList (toLowerList text) p.1.toList = true → p.2 = "Housekeeping") →
      routeDepartmentWith o text = "Housekeeping") ∧
    (∀ (o : List (String × String)) (text : String), List.Perm o keywordDeptList →
      (∀ p ∈ keywordDeptList, containsList (toLowerList text) p.1.toList = false) →
      routeDepartmentWith o text = "General") ∧
    (∀ (o : List (String × String)) (text : String), List.Perm o keywordDeptList →
      routeDepartmentWith o text ∈
        ["Housekeeping", "Room Service", "Front Desk", "IT", "General"]) := by
  refine ⟨?_, ?_, ?_⟩
  · intro o text ho htowel hall
    apply routeGo_eq_of_match
    · refine ⟨("towel", "Housekeeping"), ho.mem_iff.mpr (by decide), htowel⟩
    · exact fun q hq hqc => hall q (ho.mem_iff.mp hq) hqc
  · intro o text ho hnone
    apply routeGo_eq_general
    exact fun p hp => hnone p (ho.mem_iff.mp hp)
  · intro o text ho
    rcases routeGo_mem (toLowerList text) o with h | ⟨p, hp, hval⟩
    · unfold routeDepartmentWith
      rw [h]; decide
    · unfold routeDepartmentWith
      rw [hval]
      have hp' : p ∈ keywordDeptList := ho.mem_iff.mp hp
      fin_cases hp' <;> decide

/-- Witness for `classify_towel_general_set` at concrete orders and texts. -/
theorem classify_towel_general_set_witness :
    routeDepartmentWith keywordDeptList "A ToWeL please" = "Housekeeping" ∧
    routeDepartmentWith keywordDeptList "blah blah" = "General" ∧
    routeDepartmentWith keywordDeptList.reverse "wifi is broken" ∈
      ["Housekeeping", "Room Service", "Front Desk", "IT", "General"] :=
  ⟨classify_towel_general_set.1 keywordDeptList "A ToWeL please"
      (by decide) (by decide) (by decide),
   classify_towel_general_set.2.1 keywordDeptList "blah blah" (by decide) (by decide),
   classify_towel_general_set.2.2 keywordDeptList.reverse "wifi is broken" (by decide)⟩

/-! ## C1: insert failure and acknowledgement -/

/-- C1 counterexample: the claim says a message whose durable insert fails is
*not* acknowledged.  In `workOrderConsumer` the `CompleteMessage` call (line
98) sits after the insert's if/else and runs unconditionally, so on a valid
envelope with a failing insert the message is acknowledged anyway. -/
theorem consumer_insert_failure_acks_cex :
    decodeEnvelope (encodeEnvelope "1-0" "g1" "General" "towels") =
      some ⟨"1-0", "g1", "General", "towels"⟩ ∧
    (consumerStep Proj.empty (encodeEnvelope "1-0" "g1" "General" "towels")
      false 0 0).2.1 = true := by
  decide

/-- C1 (amended): on a valid envelope whose durable insert fails, the
consumer logs, writes no projection entry, persists nothing, and continues
the loop — but it *does* acknowledge (complete) the message, because
`CompleteMessage` runs unconditionally after the insert attempt; the queue is
therefore not left to redeliver it. -/
theorem consumer_insert_failure_behavior (st : Proj) (body : String) (p : Payload)
    (t1 t2 : Nat) (hdec : decodeEnvelope body = some p) :
    consumerStep st body false t1 t2 = (st, true, none) ∧
    ∀ rest, runConsumer st (⟨body, false, t1, t2⟩ :: rest) = runConsumer st rest := by
  constructor
  · simp [consumerStep, hdec]
  · intro rest
    simp [runConsumer, consumerStep, hdec]

/-- Witness for `consumer_insert_failure_behavior` on a concrete envelope. -/
theorem consumer_insert_failure_behavior_witness :
    consumerStep Proj.empty (encodeEnvelope "1-0" "g1" "General" "towels") false 3 4 =
      (Proj.empty, true, none) :=
  (consumer_insert_failure_behavior Proj.empty _ ⟨"1-0", "g1", "General", "towels"⟩
    3 4 (by decide)).1

/-! ## C6: malformed message is acknowledged and dropped -/

/-- C6: a message whose body fails to decode as the envelope shape is
acknowledged, produces no Work Order and no projection write, and the loop
continues with the remaining messages from an unchanged projection. -/
theorem consumer_malformed_ack_drop (st : Proj) (body : String) (insertOk : Bool)
    (t1 t2 : Nat) (hdec : decodeEnvelope body = none) :
    consumerStep st body insertOk t1 t2 = (st, true, none) ∧
    ∀ rest, runConsumer st (⟨body, insertOk, t1, t2⟩ :: rest) = runConsumer st rest := by
  constructor
  · simp [consumerStep, hdec]
  · intro rest
    simp [runConsumer, consumerStep, hdec]

/-- Witness for `consumer_malformed_ack_drop` on a non-JSON body, with a
valid message processed afterwards. -/
theorem consumer_malformed_ack_drop_witness :
    consumerStep Proj.empty "not json" true 1 2 = (Proj.empty, true, none) ∧
    runConsumer Proj.empty
        (⟨"not json", true, 1, 2⟩ ::
          [⟨encodeEnvelope "1-0" "g1" "General" "towels", true, 3, 4⟩]) =
      runConsumer Proj.empty
        [⟨encodeEnvelope "1-0" "g1" "General" "towels", true, 3, 4⟩] :=
  ⟨(consumer_malformed_ack_drop Proj.empty "not json" true 1 2 (by decide)).1,
   (consumer_malformed_ack_drop Proj.empty "not json" true 1 2 (by decide)).2 _⟩

/-! ## C8: initial status and timestamps -/

/-- C8 counterexample: the claim says `createdAt` equals `updatedAt`.  The
consumer fills them from two *separate* `time.Now()` calls (part_002 lines
87-88); when the second read returns a later instant (here 5 then 6), the
constructed and persisted work order has `created ≠ updated`. -/
theorem workorder_times_cex :
    (consumerStep Proj.empty (encodeEnvelope "1-0" "g1" "General" "towels")
        true 5 6).2.2 =
      some (mkWorkOrder ⟨"1-0", "g1", "General", "towels"⟩ 5 6) ∧
    (mkWorkOrder ⟨"1-0", "g1", "General", "towels"⟩ 5 6).status = "Pending" ∧
    (mkWorkOrder ⟨"1-0", "g1", "General", "towels"⟩ 5 6).timestamps.created ≠
      (mkWorkOrder ⟨"1-0", "g1", "General", "towels"⟩ 5 6).timestamps.updated := by
  decide

/-- C8 (amended): every Work Order the consumer constructs from a valid
envelope has status "Pending"; `created` and `updated` are set from the two
successive `time.Now()` reads at construction, so they are equal exactly when
those two reads return the same instant (which the code does not guarantee). -/
theorem workorder_pending_times (st : Proj) (body : String) (p : Payload)
    (ok : Bool) (t1 t2 : Nat) (hdec : decodeEnvelope body = some p) :
    (mkWorkOrder p t1 t2).status = "Pending" ∧
    (mkWorkOrder p t1 t2).timestamps.created = t1 ∧
    (mkWorkOrder p t1 t2).timestamps.updated = t2 ∧
    (ok = true → (consumerStep st body ok t1 t2).2.2 = some (mkWorkOrder p t1 t2)) ∧
    (t1 = t2 → (mkWorkOrder p t1 t2).timestamps.created =
      (mkWorkOrder p t1 t2).timestamps.updated) := by
  refine ⟨rfl, rfl, rfl, ?_, fun h => by simp [mkWorkOrder, h]⟩
  intro hok
  simp [consumerStep, hdec, hok]

/-- Witness for `workorder_pending_times` on a concrete envelope with the two
clock reads coinciding. -/
theorem workorder_pending_times_witness :
    (mkWorkOrder ⟨"1-0", "g1", "General", "towels"⟩ 7 7).status = "Pending" ∧
    (mkWorkOrder ⟨"1-0", "g1", "General", "towels"⟩ 7 7).timestamps.created = 7 ∧
    (mkWorkOrder ⟨"1-0", "g1", "General", "towels"⟩ 7 7).timestamps.updated = 7 ∧
    (consumerStep Proj.empty (encodeEnvelope "1-0" "g1" "General" "towels")
        true 7 7).2.2 =
      some (mkWorkOrder ⟨"1-0", "g1", "General", "towels"⟩ 7 7) ∧
    (mkWorkOrder ⟨"1-0", "g1", "General", "towels"⟩ 7 7).timestamps.created =
      (mkWorkOrder ⟨"1-0", "g1", "General", "towels"⟩ 7 7).timestamps.updated :=
  have h := workorder_pending_times Proj.empty _ ⟨"1-0", "g1", "General", "towels"⟩
    true 7 7 (by decide)
  ⟨h.1, h.2.1, h.2.2.1, h.2.2.2.1 rfl, h.2.2.2.2 rfl⟩

/-! ## C9: projection write monotonicity -/

/-- C9: the Status Projection is write-monotone: a step writes an entry only
on a successful durable insert, and then only at the envelope's `requestID`,
with the freshly persisted snapshot; every other key is untouched; no step
removes an existing entry. -/
theorem projection_write_monotone (st : Proj) (body : String) (ok : Bool) (t1 t2 : Nat) :
    (∀ k, ((st k).isSome = true) →
      (((consumerStep st body ok t1 t2).1 k).isSome = true)) ∧
    (ok = false → (consumerStep st body ok t1 t2).1 = st) ∧
    (decodeEnvelope body = none → (consumerStep st body ok t1 t2).1 = st) ∧
    (∀ p, decodeEnvelope body = some p → ∀ k, k ≠ p.requestID →
      (consumerStep st body ok t1 t2).1 k = st k) ∧
    (∀ p, decodeEnvelope body = some p → ok = true →
      (consumerStep st body ok t1 t2).1 p.requestID = some (mkWorkOrder p t1 t2) ∧
      (consumerStep st body ok t1 t2).2.2 = some (mkWorkOrder p t1 t2)) := by
  refine ⟨?_, ?_, ?_, ?_, ?_⟩
  · intro k hk
    cases hdec : decodeEnvelope body with
    | none => simpa [consumerStep, hdec] using hk
    | some p =>
      cases ok with
      | false => simpa [consumerStep, hdec] using hk
      | true =>
        by_cases hkey : k = p.requestID
        · simp [consumerStep, hdec, Proj.upsert, hkey]
        · simpa [consumerStep, hdec, Proj.upsert, hkey] using hk
  · intro hok
    cases hdec : decodeEnvelope body with
    | none => simp [consumerStep, hdec]
    | some p => simp [consumerStep, hdec, hok]
  · intro hdec
    simp [consumerStep, hdec]
  · intro p hdec k hkey
    cases ok with
    | false => simp [consumerStep, hdec]
    | true => simp [consumerStep, hdec, Proj.upsert, hkey]
  · intro p hdec hok
    simp [consumerStep, hdec, hok, Proj.upsert]

/-- Witness for `projection_write_monotone`: after a successful insert the
projection holds the snapshot at the envelope's requestID, other keys are
unchanged, and a failed insert leaves the projection untouched. -/
theorem projection_write_monotone_witness :
    (consumerStep Proj.empty (encodeEnvelope "1-0" "g1" "General" "towels")
        true 3 4).1 "1-0" =
      some (mkWorkOrder ⟨"1-0", "g1", "General", "towels"⟩ 3 4) ∧
    (consumerStep Proj.empty (encodeEnvelope "1-0" "g1" "General" "towels")
        true 3 4).1 "other" = Proj.empty "other" ∧
    (consumerStep Proj.empty (encodeEnvelope "1-0" "g1" "General" "towels")
        false 3 4).1 = Proj.empty :=
  ⟨((projection_write_monotone Proj.empty _ true 3 4).2.2.2.2
      ⟨"1-0", "g1", "General", "towels"⟩ (by decide) rfl).1,
   (projection_write_monotone Proj.empty _ true 3 4).2.2.2.1
      ⟨"1-0", "g1", "General", "towels"⟩ (by decide) "other" (by decide),
   (projection_write_monotone Proj.empty _ false 3 4).2.1 rfl⟩

/-! ## C10: every projected snapshot is Pending -/

/-- One consumer step preserves "every projected snapshot has status
Pending": the only snapshot it can write is freshly constructed with status
`"Pending"`. -/
lemma consumerStep_preserves_pending (st : Proj) (body : String) (ok : Bool)
    (t1 t2 : Nat) (h : ∀ k wo, st k = some wo → wo.status = "Pending") :
    ∀ k wo, (consumerStep st body ok t1 t2).1 k = some wo → wo.status = "Pending" := by
  intro k wo
  cases hdec : decodeEnvelope body with
  | none =>
    simp only [consumerStep, hdec]
    exact h k wo
  | some p =>
    cases ok with
    | false =>
      simp only [consumerStep, hdec, if_false, Bool.false_eq_true]
      exact h k wo
    | true =>
      simp only [consumerStep, hdec, if_true, Proj.upsert]
      by_cases hkey : k = p.requestID
      · simp only [hkey, if_true, if_pos rfl, Option.some.injEq]
        intro hwo
        rw [← hwo]
        rfl
      · simp only [if_neg hkey]
        exact h k wo

/-- The "every projected snapshot is Pending" invariant holds along any run
of the consumer loop. -/
lemma runConsumer_preserves_pending (events : List MsgEvent) :
    ∀ st : Proj, (∀ k wo, st k = some wo → wo.status = "Pending") →
      ∀ k wo, runConsumer st events k = some wo → wo.status = "Pending" := by
  induction events with
  | nil => exact fun st h => h
  | cons e rest ih =>
    intro st h
    exact ih _ (consumerStep_preserves_pending st e.body e.insertOk e.t1 e.t2 h)

/-- C10: starting from the empty projection, after any sequence of consumer
steps every snapshot held by the Status Projection has status `"Pending"`;
hence every successful status lookup returns a "Pending" work order. -/
theorem status_query_always_pending (events : List MsgEvent) (k : String)
    (wo : WorkOrder)
    (h : handleStatusLookup (runConsumer Proj.empty events) k = some wo) :
    wo.status = "Pending" :=
  runConsumer_preserves_pending events Proj.empty
    (fun _ _ hcontra => by simp [Proj.empty] at hcontra) k wo h

/-- Witness for `status_query_always_pending` on a one-message run. -/
theorem status_query_always_pending_witness :
    (mkWorkOrder ⟨"1-0", "g1", "Housekeeping", "towels"⟩ 3 3).status = "Pending" :=
  status_query_always_pending
    [⟨encodeEnvelope "1-0" "g1" "Housekeeping" "towels", true, 3, 3⟩] "1-0"
    (mkWorkOrder ⟨"1-0", "g1", "Housekeeping", "towels"⟩ 3 3) (by decide)

/-! ## C3: requestID back-reference -/

/-- C3 counterexample: the claim says every Work Order record carries a
`requestID` field referencing the originating envelope.  The `WorkOrder`
struct (part_002 lines 20-30) has no such field: two envelopes that differ
only in `requestID` yield literally identical Work Order records, so the
record cannot carry any back-reference. -/
theorem workorder_no_backref_cex :
    mkWorkOrder ⟨"1-0", "g1", "General", "hi"⟩ 0 0 =
      mkWorkOrder ⟨"9-9", "g1", "General", "hi"⟩ 0 0 ∧
    ("1-0" : String) ≠ "9-9" := by
  decide

/-- C3 (amended): the Work Order record carries no `requestID` field — it is
a function of the envelope's `guestID`, `department` and `request` only — and
the correlation with the originating envelope lives solely in the Status
Projection, which the consumer keys by the envelope's `requestID`. -/
theorem workorder_correlation_via_projection (p q : Payload) (st : Proj)
    (t1 t2 : Nat) (hg : p.guestID = q.guestID) (hd : p.department = q.department)
    (hr : p.request = q.request) :
    mkWorkOrder p t1 t2 = mkWorkOrder q t1 t2 ∧
    ∀ body, decodeEnvelope body = some p →
      (consumerStep st body true t1 t2).1 p.requestID = some (mkWorkOrder p t1 t2) := by
  constructor
  · simp [mkWorkOrder, hg, hd, hr]
  · intro body hdec
    simp [consumerStep, hdec, Proj.upsert]

/-- Witness for `workorder_correlation_via_projection` on two envelopes
differing only in requestID. -/
theorem workorder_correlation_via_projection_witness :
    mkWorkOrder ⟨"1-0", "g1", "General", "hi"⟩ 2 2 =
      mkWorkOrder ⟨"9-9", "g1", "General", "hi"⟩ 2 2 ∧
    (consumerStep Proj.empty (encodeEnvelope "1-0" "g1" "General" "hi")
        true 2 2).1 "1-0" =
      some (mkWorkOrder ⟨"1-0", "g1", "General", "hi"⟩ 2 2) :=
  have h := workorder_correlation_via_projection ⟨"1-0", "g1", "General", "hi"⟩
    ⟨"9-9", "g1", "General", "hi"⟩ Proj.empty 2 2 rfl rfl rfl
  ⟨h.1, h.2 (encodeEnvelope "1-0" "g1" "General" "hi") (by decide)⟩

/-! ## C7: request-ID uniqueness -/

/-- `digitChar` of a digit has the expected code point. -/
lemma digitChar_toNat (d : Nat) (h : d < 10) : (digitChar d).toNat = 48 + d := by
  interval_cases d <;> decide

/-- Every character `decDigits` emits is a decimal digit. -/
lemma decDigits_digits :
    ∀ (fuel n : Nat), ∀ c ∈ decDigits fuel n, 48 ≤ c.toNat ∧ c.toNat ≤ 57 := by
  intro fuel
  induction fuel with
  | zero => intro n c hc; cases hc
  | succ fuel ih =>
    intro n c hc
    by_cases hn : n < 10
    · simp only [decDigits, hn, if_true, List.mem_singleton] at hc
      subst hc
      rw [digitChar_toNat n hn]
      omega
    · simp only [decDigits, hn, if_false, List.mem_append, List.mem_singleton] at hc
      rcases hc with hc | hc
      · exact ih (n / 10) c hc
      · subst hc
        rw [digitChar_toNat (n % 10) (Nat.mod_lt _ (by omega))]
        omega

/-- Appending one digit to the read-back. -/
lemma parseDec_append (a : List Char) (c : Char) :
    parseDec (a ++ [c]) = 10 * parseDec a + (c.toNat - 48) := by
  simp [parseDec, List.foldl_append]

/-- `parseDec` inverts `decDigits` whenever the fuel exceeds the number. -/
lemma parseDec_decDigits : ∀ (fuel n : Nat), n < fuel → parseDec (decDigits fuel n) = n := by
  intro fuel
  induction fuel with
  | zero => intro n h; omega
  | succ fuel ih =>
    intro n h
    by_cases hn : n < 10
    · simp only [decDigits, hn, if_true]
      show 10 * 0 + ((digitChar n).toNat - 48) = n
      rw [digitChar_toNat n hn]
      omega
    · simp only [decDigits, hn, if_false]
      rw [parseDec_append, ih (n / 10) (by omega),
        digitChar_toNat (n % 10) (Nat.mod_lt _ (by omega))]
      omega

/-- The decimal printer is injective. -/
lemma decRepr_inj {n m : Nat} (h : decRepr n = decRepr m) : n = m := by
  have hdata : decDigits (n + 1) n = decDigits (m + 1) m := congrArg String.data h
  have := parseDec_decDigits (n + 1) n (by omega)
  rw [hdata, parseDec_decDigits (m + 1) m (by omega)] at this
  omega

/-- The decimal printer never emits a dash. -/
lemma dash_not_mem_decRepr (n : Nat) : '-' ∉ (decRepr n).data := by
  intro hmem
  have := decDigits_digits (n + 1) n '-' hmem
  simp at this

/-- Splitting at the first dash is unambiguous when neither prefix contains
one. -/
lemma append_dash_inj :
    ∀ (a a' b b' : List Char), '-' ∉ a → '-' ∉ a' →
      a ++ '-' :: b = a' ++ '-' :: b' → a = a' ∧ b = b' := by
  intro a
  induction a with
  | nil =>
    intro a' b b' _ ha'
    cases a' with
    | nil => intro h; exact ⟨rfl, by simpa using h⟩
    | cons c t =>
      intro h
      have hc : '-' = c := by simpa using congrArg (List.headI) h
      exact absurd (hc ▸ List.mem_cons_self c t) ha'
  | cons c t ih =>
    intro a' b b' ha ha'
    cases a' with
    | nil =>
      intro h
      have hc : c = '-' := by simpa using congrArg (List.headI) h
      exact absurd (hc ▸ List.mem_cons_self c t) (hc ▸ ha)
    | cons c' t' =>
      intro h
      have hc : c = c' := by simpa using congrArg List.headI h
      have htail : t ++ '-' :: b = t' ++ '-' :: b' := by
        have := congrArg List.tail h
        simpa using this
      have := ih t' b b' (fun hm => ha (List.mem_cons_of_mem _ hm))
        (fun hm => ha' (List.mem_cons_of_mem _ hm)) htail
      exact ⟨by rw [hc, this.1], this.2⟩

/-- `newRequestID` is injective in the observed (clock, random) pair. -/
lemma newRequestID_inj {t r t' r' : Nat}
    (h : newRequestID t r = newRequestID t' r') : t = t' ∧ r = r' := by
  have hdata : (decRepr t).data ++ '-' :: (decRepr r).data =
      (decRepr t').data ++ '-' :: (decRepr r').data := by
    have := congrArg String.data h
    simpa [newRequestID, String.data_append] using this
  have := append_dash_inj (decRepr t).data (decRepr t').data (decRepr r).data
    (decRepr r').data (dash_not_mem_decRepr t) (dash_not_mem_decRepr t') hdata
  have ht : decRepr t = decRepr t' := congrArg String.mk this.1
  have hr : decRepr r = decRepr r' := congrArg String.mk this.2
  exact ⟨decRepr_inj ht, decRepr_inj hr⟩

/-- C7 counterexample: the claim quantifies over *every* combination of time
and random values the concurrent calls may observe.  Two calls that observe
the same `UnixNano` reading and the same `Intn(10000)` draw — possible under
concurrency — produce the same ID, so N = 2 ≤ 10,000 calls need not yield 2
distinct values. -/
theorem newRequestID_collision_cex :
    newRequestID 1 5 = newRequestID 1 5 ∧
    ¬ (([(1, 5), (1, 5)] : List (Nat × Nat)).map
        fun p => newRequestID p.1 p.2).Nodup := by
  constructor
  · rfl
  · decide

/-- C7 (amended): the request IDs of any number of calls are pairwise
distinct exactly as far as the observed (UnixNano, Intn) pairs are: the ID is
an injective function of that pair, so distinct observation pairs give
distinct IDs, and calls sharing both observations collide. -/
theorem newRequestID_distinct_of_distinct_observations
    (obs : List (Nat × Nat)) (h : obs.Nodup) :
    (obs.map fun p => newRequestID p.1 p.2).Nodup := by
  refine h.map ?_
  intro p q hpq
  have := newRequestID_inj hpq
  exact Prod.ext this.1 this.2

/-- Witness for `newRequestID_distinct_of_distinct_observations` on three
concrete observations. -/
theorem newRequestID_distinct_witness :
    (([(1, 2), (1, 3), (2, 2)] : List (Nat × Nat)).map
      fun p => newRequestID p.1 p.2).Nodup :=
  newRequestID_distinct_of_distinct_observations [(1, 2), (1, 3), (2, 2)] (by decide)

/-! ## C2: envelope round-trip -/

/-- The scanner consumes a run of safe characters up to the next quote
verbatim. -/
lemma scanString_safe_append :
    ∀ (l rest : List Char), l.all safeChar = true →
      scanString (l ++ '\"' :: rest) = some (l, rest) := by
  intro l
  induction l with
  | nil =>
    intro rest _
    rw [List.nil_append, scanString.eq_def]
    rfl
  | cons c t ih =>
    intro rest h
    simp only [List.all_cons, Bool.and_eq_true] at h
    obtain ⟨hc, ht⟩ := h
    simp only [safeChar, Bool.and_eq_true, bne_iff_ne, decide_eq_true_eq] at hc
    obtain ⟨hq, hbs, hge⟩ := hc
    rw [List.cons_append, scanString.eq_def]
    simp only [if_neg hq, if_neg hbs, ih rest ht]
    rw [if_neg (show ¬ c.toNat < 32 by omega)]

/-- Parsing one `"key":"value",` member followed by more members. -/
lemma parseMembers_cons (fuel : Nat) (k v more : List Char)
    (hk : k.all safeChar = true) (hv : v.all safeChar = true) :
    parseMembers (fuel + 1)
        ('\"' :: (k ++ '\"' :: ':' :: '\"' :: (v ++ '\"' :: ',' :: more))) =
      (parseMembers fuel more).map fun x => ((⟨k⟩, ⟨v⟩) :: x.1, x.2) := by
  rw [parseMembers.eq_def]
  simp only [scanString_safe_append k _ hk, scanString_safe_append v _ hv]
  rcases h : parseMembers fuel more with - | ⟨ms, r⟩ <;> simp [h]

/-- Parsing the final `"key":"value"\x7d` member. -/
lemma parseMembers_last (fuel : Nat) (k v tail : List Char)
    (hk : k.all safeChar = true) (hv : v.all safeChar = true) :
    parseMembers (fuel + 1)
        ('\"' :: (k ++ '\"' :: ':' :: '\"' :: (v ++ '\"' :: '\x7d' :: tail))) =
      some ([(⟨k⟩, ⟨v⟩)], tail) := by
  rw [parseMembers.eq_def]
  simp only [scanString_safe_append k _ hk, scanString_safe_append v _ hv]

/-- On a body that is an opening brace followed by a quote, `decodeEnvelope`
is the member parser followed by the struct fold. -/
lemma decodeEnvelope_parse (body : String) (tail : List Char)
    (hb : body.data = '\x7b' :: '\"' :: tail) :
    decodeEnvelope body =
      match parseMembers (tail.length + 3) ('\"' :: tail) with
      | some (ms, []) =>
        some (List.foldl (fun p kv => assignField p kv.1 kv.2) Payload.zero ms)
      | _ => none := by
  unfold decodeEnvelope
  rw [show body.toList = body.data from rfl, hb]
  rfl

/-- Parsing the four members of a gateway envelope whose field values are
safe strings. -/
lemma parseMembers_envelope (fuel : Nat) (hf : 4 ≤ fuel) (rid gid dept req : List Char)
    (h1 : rid.all safeChar = true) (h2 : gid.all safeChar = true)
    (h3 : dept.all safeChar = true) (h4 : req.all safeChar = true) :
    parseMembers fuel
      ('\"' :: (['r', 'e', 'q', 'u', 'e', 's', 't', 'I', 'D'] ++ '\"' :: ':' :: '\"' ::
        (rid ++ '\"' :: ',' :: ('\"' :: (['g', 'u', 'e', 's', 't', 'I', 'D'] ++ '\"' :: ':' :: '\"' ::
        (gid ++ '\"' :: ',' :: ('\"' :: (['d', 'e', 'p', 'a', 'r', 't', 'm', 'e', 'n', 't'] ++ '\"' :: ':' :: '\"' ::
        (dept ++ '\"' :: ',' :: ('\"' :: (['r', 'e', 'q', 'u', 'e', 's', 't'] ++ '\"' :: ':' :: '\"' ::
        (req ++ '\"' :: '\x7d' :: [])))))))))))) =
      some ([("requestID", ⟨rid⟩), ("guestID", ⟨gid⟩), ("department", ⟨dept⟩),
             ("request", ⟨req⟩)], []) := by
  obtain ⟨f, rfl⟩ : ∃ f, fuel = f + 4 := ⟨fuel - 4, by omega⟩
  rw [show f + 4 = (f + 3) + 1 from rfl,
    parseMembers_cons (f + 3) ['r', 'e', 'q', 'u', 'e', 's', 't', 'I', 'D'] rid _
      (by decide) h1]
  rw [show f + 3 = (f + 2) + 1 from rfl,
    parseMembers_cons (f + 2) ['g', 'u', 'e', 's', 't', 'I', 'D'] gid _ (by decide) h2]
  rw [show f + 2 = (f + 1) + 1 from rfl,
    parseMembers_cons (f + 1) ['d', 'e', 'p', 'a', 'r', 't', 'm', 'e', 'n', 't'] dept _
      (by decide) h3]
  rw [parseMembers_last f ['r', 'e', 'q', 'u', 'e', 's', 't'] req _ (by decide) h4]
  rfl

/-- C2 counterexample: the gateway's sprintf performs no JSON escaping, so a
guestID containing a double quote (here `x"`) produces a body the consumer
cannot decode at all — the envelope does not round-trip field-for-field; a
backslash in the text likewise breaks decoding. -/
theorem envelope_roundtrip_cex :
    decodeEnvelope (encodeEnvelope "1-0" "x\"" "General" "hi") = none ∧
    decodeEnvelope (encodeEnvelope "1-0" "g1" "General" "a \\ b") = none := by
  decide

/-- C2 (amended): an envelope published by the gateway decodes on the
consumer side to field-for-field equal requestID, guestID, department and
request values whenever all four field strings are free of double quotes,
backslashes and control characters (the gateway substitutes them into the
JSON skeleton unescaped); guestID or text containing a quote or backslash
breaks the round-trip. -/
theorem envelope_roundtrip (rid gid dept req : String)
    (h1 : safeStr rid = true) (h2 : safeStr gid = true)
    (h3 : safeStr dept = true) (h4 : safeStr req = true) :
    decodeEnvelope (encodeEnvelope rid gid dept req) =
      some ⟨rid, gid, dept, req⟩ := by
  have e1 : ("\x7b\"requestID\":\"" : String).data =
      '\x7b' :: '\"' :: 'r' :: 'e' :: 'q' :: 'u' :: 'e' :: 's' :: 't' :: 'I' :: 'D' ::
        '\"' :: ':' :: '\"' :: [] := rfl
  have e2 : ("\",\"guestID\":\"" : String).data =
      '\"' :: ',' :: '\"' :: 'g' :: 'u' :: 'e' :: 's' :: 't' :: 'I' :: 'D' ::
        '\"' :: ':' :: '\"' :: [] := rfl
  have e3 : ("\",\"department\":\"" : String).data =
      '\"' :: ',' :: '\"' :: 'd' :: 'e' :: 'p' :: 'a' :: 'r' :: 't' :: 'm' :: 'e' ::
        'n' :: 't' :: '\"' :: ':' :: '\"' :: [] := rfl
  have e4 : ("\",\"request\":\"" : String).data =
      '\"' :: ',' :: '\"' :: 'r' :: 'e' :: 'q' :: 'u' :: 'e' :: 's' :: 't' ::
        '\"' :: ':' :: '\"' :: [] := rfl
  have e5 : ("\"\x7d" : String).data = ['\"', '\x7d'] := rfl
  have hb : (encodeEnvelope rid gid dept req).data =
      '\x7b' :: '\"' :: (['r', 'e', 'q', 'u', 'e', 's', 't', 'I', 'D'] ++ '\"' :: ':' :: '\"' ::
        (rid.data ++ '\"' :: ',' :: ('\"' :: (['g', 'u', 'e', 's', 't', 'I', 'D'] ++ '\"' :: ':' :: '\"' ::
        (gid.data ++ '\"' :: ',' :: ('\"' :: (['d', 'e', 'p', 'a', 'r', 't', 'm', 'e', 'n', 't'] ++ '\"' :: ':' :: '\"' ::
        (dept.data ++ '\"' :: ',' :: ('\"' :: (['r', 'e', 'q', 'u', 'e', 's', 't'] ++ '\"' :: ':' :: '\"' ::
        (req.data ++ ['\"', '\x7d']))))))))))) := by
    simp only [encodeEnvelope, String.data_append, e1, e2, e3, e4, e5]
    simp [List.cons_append, List.append_assoc]
  rw [decodeEnvelope_parse _ _ hb,
    parseMembers_envelope _
      (by simp only [List.length_append, List.length_cons, List.length_nil]; omega)
      rid.data gid.data dept.data req.data h1 h2 h3 h4]
  rfl

/-- Witness for `envelope_roundtrip` on one concrete intake. -/
theorem envelope_roundtrip_witness :
    safeStr "1-0" = true ∧ safeStr "g1" = true ∧ safeStr "Housekeeping" = true ∧
    safeStr "need towels" = true ∧
    decodeEnvelope (encodeEnvelope "1-0" "g1" "Housekeeping" "need towels") =
      some ⟨"1-0", "g1", "Housekeeping", "need towels"⟩ :=
  ⟨by decide, by decide, by decide, by decide,
   envelope_roundtrip "1-0" "g1" "Housekeeping" "need towels"
     (by decide) (by decide) (by decide) (by decide)⟩

end VButler
